import Mathlib

/-!
Verification of the `dml` descriptive-statistics library (src/dml.c, src/dml.h).

The C code operates on 32-bit floats; we embed the numeric values as exact
rationals (ℚ).  A loaded csv table (`csvData_t`) carries a row count, a column
count and a rectangular data frame; we model the data frame as an index
function.  Caller-supplied and returned float buffers become `List ℚ`.
C `for` loops over an index range become maps/folds over `List.range`.
-/

namespace Dml

/-- The `csvData_t` structure from open_csv.h as used by dml.c: a row count,
a column count, and the rectangular `dataFrame` of numeric values. -/
structure csvData where
  rows : Nat
  cols : Nat
  dataFrame : Nat → Nat → ℚ

/-- Embedding of the C accumulation loop pattern
`for(i=0;i<n;i++) sum += f(i);` starting from `sum = 0`. -/
def loopSum (n : Nat) (f : Nat → ℚ) : ℚ :=
  (List.range n).foldl (fun acc i => acc + f i) 0

/-- The values of column `col`, rows `0..rows-1` in order (the column that the
statistics functions of dml.c traverse). -/
def column (df : csvData) (col : Nat) : List ℚ :=
  (List.range df.rows).map (fun row => df.dataFrame row col)

/-- `mean` from dml.c: sums `df->dataFrame[row][col]` over all rows and divides
by `df->rows`. -/
def mean (df : csvData) (col : Nat) : ℚ :=
  loopSum df.rows (fun row => df.dataFrame row col) / (df.rows : ℚ)

/-- `compareVectors` from dml.c:
`return (*(float *)a > *(float *)b) - (*(float *)a < *(float *)b);`
where a C comparison yields 1 when true and 0 when false. -/
def compareVectors (a b : ℚ) : Int :=
  (if a > b then (1 : Int) else 0) - (if a < b then (1 : Int) else 0)

/-- The sorted scratch copy `sortedFeature` built by `median` in dml.c:
the column values copied out and sorted ascending (qsort with
`compareVectors`). -/
def sortedColumn (df : csvData) (col : Nat) : List ℚ :=
  List.insertionSort (fun a b => a ≤ b) (column df col)

/-- `median` from dml.c.  The source allocates `sortedFeature`, copies the
column into it and qsorts it, but the returned value indexes the ORIGINAL
`df->dataFrame` at the middle position(s), not the sorted copy:
`(df->rows % 2 == 1) ? df->dataFrame[(df->rows-1)/2][col]
 : (df->dataFrame[df->rows/2][col] + df->dataFrame[df->rows/2 - 1][col]) / 2`. -/
def median (df : csvData) (col : Nat) : ℚ :=
  let _sortedFeature := sortedColumn df col
  if df.rows % 2 = 1 then
    df.dataFrame ((df.rows - 1) / 2) col
  else
    (df.dataFrame (df.rows / 2) col + df.dataFrame (df.rows / 2 - 1) col) / 2

/-- What the spec requires of a median: the middle element (odd row count) or
the average of the two central elements (even row count) of the column in
ascending sorted order. -/
def sortedMedian (df : csvData) (col : Nat) : ℚ :=
  let s := sortedColumn df col
  if df.rows % 2 = 1 then
    s.getD ((df.rows - 1) / 2) 0
  else
    (s.getD (df.rows / 2) 0 + s.getD (df.rows / 2 - 1) 0) / 2

/-- `standardDeviation` from dml.c: computes the column mean, sums the squared
distances from it, divides by `df->rows` and returns that — no square root is
ever applied. -/
def standardDeviation (df : csvData) (col : Nat) : ℚ :=
  let meanVal := mean df col
  loopSum df.rows
      (fun row => (df.dataFrame row col - meanVal) * (df.dataFrame row col - meanVal))
    / (df.rows : ℚ)

/-- The population variance of column `col`, written independently of the code
as a `Finset` average of squared deviations from a `Finset` average. -/
def specColMean (df : csvData) (col : Nat) : ℚ :=
  (Finset.sum (Finset.range df.rows) (fun r => df.dataFrame r col)) / (df.rows : ℚ)

/-- Population variance of column `col` (spec-side definition). -/
def colVariance (df : csvData) (col : Nat) : ℚ :=
  (Finset.sum (Finset.range df.rows)
      (fun r => (df.dataFrame r col - specColMean df col) ^ 2)) / (df.rows : ℚ)

/-- `scaleToUnity` from dml.c: each element of the input vector is divided by
`(upperBound - lowerBound)`; the lower bound is never subtracted first. -/
def scaleToUnity (vector : List ℚ) (lowerBound upperBound : ℚ) : List ℚ :=
  vector.map (fun x => x / (upperBound - lowerBound))

/-- `scaleVector` from dml.c:
`scale = (newUpBound - newLowBound) / (upperBound - lowerBound)`,
`offset = newLowBound - scale * lowerBound`, each output element is
`input * scale + offset`. -/
def scaleVector (vector : List ℚ)
    (lowerBound upperBound newLowBound newUpBound : ℚ) : List ℚ :=
  let scale := (newUpBound - newLowBound) / (upperBound - lowerBound)
  let offset := newLowBound - scale * lowerBound
  vector.map (fun x => x * scale + offset)

/-- `randomDataStream` from dml.c.  Each iteration draws two values from the
process randomness source (`rand()`), reduced modulo `df->rows` and `df->cols`;
we model the stream of `rand()` results as a function `rnd : Nat → Nat`, the
`num`-th iteration consuming draws `2*num` and `2*num+1`. -/
def randomDataStream (df : csvData) (numOfData : Nat) (rnd : Nat → Nat) : List ℚ :=
  (List.range numOfData).map (fun num =>
    df.dataFrame (rnd (2 * num) % df.rows) (rnd (2 * num + 1) % df.cols))

/-- One printed row of `head`/`tail` in dml.c: the `cols` values
`df->dataFrame[row][0..cols-1]` in order. -/
def printRow (df : csvData) (row : Nat) : List ℚ :=
  (List.range df.cols).map (fun col => df.dataFrame row col)

/-- `head` from dml.c: prints rows `0..lines-1` in order; we model the printed
output as the list of printed rows. -/
def head (df : csvData) (lines : Nat) : List (List ℚ) :=
  (List.range lines).map (fun row => printRow df row)

/-- `tail` from dml.c: the loop `for(row=df->rows-1; row>df->rows-lines-1; row--)`
prints rows `rows-1` down to `rows-lines`; the `i`-th printed row is row
`rows-1-i`.  (Faithful for `lines ≤ rows`; beyond that the C code indexes out
of bounds.) -/
def tail (df : csvData) (lines : Nat) : List (List ℚ) :=
  (List.range lines).map (fun i => printRow df (df.rows - 1 - i))

/-! ### Helper lemmas -/

theorem loopSum_succ (n : Nat) (f : Nat → ℚ) :
    loopSum (n + 1) f = loopSum n f + f n := by
  have h : ∀ (l : List Nat) (a : ℚ),
      l.foldl (fun acc i => acc + f i) a = a + l.foldl (fun acc i => acc + f i) 0 := by
    intro l
    induction l with
    | nil => intro a; simp
    | cons x xs ih =>
      intro a
      simp only [List.foldl_cons]
      rw [ih (a + f x), ih (0 + f x)]
      ring
  simp only [loopSum, List.range_succ, List.foldl_append, List.foldl_cons, List.foldl_nil]

theorem loopSum_eq_finsetSum (n : Nat) (f : Nat → ℚ) :
    loopSum n f = Finset.sum (Finset.range n) f := by
  induction n with
  | zero => rfl
  | succ m ih => rw [loopSum_succ, ih, Finset.sum_range_succ]

theorem listSum_range_map (n : Nat) (f : Nat → ℚ) :
    ((List.range n).map f).sum = Finset.sum (Finset.range n) f := by
  induction n with
  | zero => rfl
  | succ m ih =>
    rw [List.range_succ, List.map_append, List.sum_append, ih, Finset.sum_range_succ]
    simp

theorem getD_map_of_lt (f : ℚ → ℚ) (l : List ℚ) (i : Nat) (h : i < l.length) :
    (l.map f).getD i 0 = f (l.getD i 0) := by
  induction l generalizing i with
  | nil => simp at h
  | cons x xs ih =>
    cases i with
    | zero => rfl
    | succ j =>
      simp only [List.map_cons, List.getD_cons_succ]
      exact ih j (by simpa using h)

theorem reverse_map_range {α : Type} (f : Nat → α) (n : Nat) :
    ((List.range n).map f).reverse = (List.range n).map (fun i => f (n - 1 - i)) := by
  apply List.ext_getElem
  · simp
  · intro i h1 h2
    simp only [List.length_reverse, List.length_map, List.length_range] at h1 h2
    rw [List.getElem_reverse]
    simp only [List.getElem_map, List.getElem_range, List.length_map, List.length_range]

/-! ### Concrete tables used as failing inputs and witnesses -/

/-- A 3-row, 1-column table holding column values `[5, 1, 3]`. -/
def table513 : csvData :=
  { rows := 3, cols := 1, dataFrame := fun r _ => ([5, 1, 3] : List ℚ).getD r 0 }

/-- A 2-row, 1-column table holding column values `[0, 4]`. -/
def table04 : csvData :=
  { rows := 2, cols := 1, dataFrame := fun r _ => ([0, 4] : List ℚ).getD r 0 }

/-- A 4-row, 1-column table holding column values `[1, 2, 3, 4]`. -/
def table1234 : csvData :=
  { rows := 4, cols := 1, dataFrame := fun r _ => ([1, 2, 3, 4] : List ℚ).getD r 0 }

/-! ### Claims -/

/-- Claim C1 (code bug): on the column `[5, 1, 3]` the spec requires the
sorted-order middle value `3`, but `median` as implemented builds and discards
the sorted scratch copy and reads the middle of the UNSORTED table, returning
`1`. -/
theorem median_reads_unsorted_table :
    median table513 0 = 1 ∧ sortedMedian table513 0 = 3 ∧
    median table513 0 ≠ sortedMedian table513 0 := by
  refine ⟨by decide, by decide, by decide⟩

/-- Claim C2: `standardDeviation` returns the population variance of the
column — the average of squared deviations from the column mean — and not its
square root: on the column `[0, 4]` it returns the variance `4` and not `2`,
the nonnegative number whose square is that variance. -/
theorem standardDeviation_is_variance :
    (∀ (df : csvData) (col : Nat), 1 ≤ df.rows →
      standardDeviation df col = colVariance df col) ∧
    standardDeviation table04 0 = 4 ∧ ((2 : ℚ)) ^ 2 = colVariance table04 0 ∧
    standardDeviation table04 0 ≠ 2 := by
  have hsd : standardDeviation table04 0 = 4 := by
    norm_num [standardDeviation, mean, loopSum, table04, List.range_succ]
  have hcv : colVariance table04 0 = 4 := by
    norm_num [colVariance, specColMean, table04, Finset.sum_range_succ,
      Finset.sum_range_zero]
  refine ⟨?general, hsd, by rw [hcv]; norm_num, by rw [hsd]; norm_num⟩
  intro df col _h
  have hm : mean df col = specColMean df col := by
    rw [mean, specColMean, loopSum_eq_finsetSum]
  simp only [standardDeviation, colVariance, loopSum_eq_finsetSum]
  congr 1
  apply Finset.sum_congr rfl
  intro r _
  rw [hm]
  ring

/-- Witness for C2, applied at the concrete table with column `[1, 2, 3, 4]`. -/
theorem standardDeviation_is_variance_witness :
    1 ≤ table1234.rows ∧ standardDeviation table1234 0 = colVariance table1234 0 :=
  ⟨by decide, standardDeviation_is_variance.1 table1234 0 (by decide)⟩

/-- Claim C3: `scaleToUnity` returns a vector of the input's length whose
`i`-th element is the `i`-th input element divided by
`upperBound - lowerBound`; the lower bound is never subtracted first. -/
theorem scaleToUnity_pointwise (v : List ℚ) (lb ub : ℚ) (_h : ub ≠ lb) :
    (scaleToUnity v lb ub).length = v.length ∧
    ∀ i, i < v.length → (scaleToUnity v lb ub).getD i 0 = v.getD i 0 / (ub - lb) := by
  refine ⟨by simp [scaleToUnity], ?elems⟩
  intro i hi
  simp only [scaleToUnity]
  exact getD_map_of_lt _ v i hi

/-- Witness for C3 on the vector `[3, 5]` with bounds `2` and `4`. -/
theorem scaleToUnity_pointwise_witness :
    ((4 : ℚ) ≠ 2) ∧
    ((scaleToUnity [3, 5] 2 4).length = ([3, 5] : List ℚ).length ∧
     ∀ i, i < ([3, 5] : List ℚ).length →
       (scaleToUnity [3, 5] 2 4).getD i 0 = ([3, 5] : List ℚ).getD i 0 / (4 - 2)) :=
  ⟨by norm_num, scaleToUnity_pointwise [3, 5] 2 4 (by norm_num)⟩

/-- Claim C4: `scaleVector` returns a vector of the input's length whose `i`-th
element is `input * scale + offset`, with
`scale = (newUpBound - newLowBound) / (upperBound - lowerBound)` and
`offset = newLowBound - scale * lowerBound`. -/
theorem scaleVector_pointwise (v : List ℚ) (lb ub nl nu : ℚ) (_h : ub ≠ lb) :
    (scaleVector v lb ub nl nu).length = v.length ∧
    ∀ i, i < v.length →
      (scaleVector v lb ub nl nu).getD i 0 =
        v.getD i 0 * ((nu - nl) / (ub - lb)) + (nl - ((nu - nl) / (ub - lb)) * lb) := by
  refine ⟨by simp [scaleVector], ?elems⟩
  intro i hi
  simp only [scaleVector]
  exact getD_map_of_lt _ v i hi

/-- Witness for C4 on the vector `[1, 5]`, from bounds `[1, 5]` to `[0, 1]`. -/
theorem scaleVector_pointwise_witness :
    ((5 : ℚ) ≠ 1) ∧
    ((scaleVector [1, 5] 1 5 0 1).length = ([1, 5] : List ℚ).length ∧
     ∀ i, i < ([1, 5] : List ℚ).length →
       (scaleVector [1, 5] 1 5 0 1).getD i 0 =
         ([1, 5] : List ℚ).getD i 0 * ((1 - 0) / (5 - 1)) +
           (0 - ((1 - 0) / (5 - 1)) * 1)) :=
  ⟨by norm_num, scaleVector_pointwise [1, 5] 1 5 0 1 (by norm_num)⟩

/-- Claim C5: rescaling from `[lo, hi]` to `[nl, nu]` and then back from
`[nl, nu]` to `[lo, hi]` reproduces the original vector exactly, for any
non-degenerate bound pairs, over the exact-arithmetic embedding. -/
theorem scaleVector_roundTrip (v : List ℚ) (lo hi nl nu : ℚ)
    (h1 : hi ≠ lo) (h2 : nu ≠ nl) :
    scaleVector (scaleVector v lo hi nl nu) nl nu lo hi = v := by
  have hlo : hi - lo ≠ 0 := sub_ne_zero.mpr h1
  have hnl : nu - nl ≠ 0 := sub_ne_zero.mpr h2
  simp only [scaleVector, List.map_map]
  refine (List.map_congr_left ?_).trans (List.map_id v)
  intro x _
  simp only [Function.comp_apply, id_eq]
  field_simp
  ring

/-- Witness for C5 on the vector `[2, 3]`, round trip `[1, 5] → [0, 1] → [1, 5]`. -/
theorem scaleVector_roundTrip_witness :
    ((5 : ℚ) ≠ 1) ∧ ((1 : ℚ) ≠ 0) ∧
    scaleVector (scaleVector [2, 3] 1 5 0 1) 0 1 1 5 = [2, 3] :=
  ⟨by norm_num, by norm_num,
    scaleVector_roundTrip [2, 3] 1 5 0 1 (by norm_num) (by norm_num)⟩

/-- Claim C6: `mean` is the arithmetic average — the sum of the column's values
divided by the row count; on the column `[1, 2, 3, 4]` it equals `5/2`. -/
theorem mean_is_arithmetic_average :
    (∀ (df : csvData) (col : Nat), 1 ≤ df.rows →
      mean df col = (column df col).sum / (df.rows : ℚ)) ∧
    mean table1234 0 = 5 / 2 := by
  constructor
  · intro df col _h
    simp only [mean, column, loopSum_eq_finsetSum, listSum_range_map]
  · norm_num [mean, loopSum, table1234, List.range_succ]

/-- Witness for C6 at the concrete table with column `[5, 1, 3]`. -/
theorem mean_is_arithmetic_average_witness :
    1 ≤ table513.rows ∧
    mean table513 0 = (column table513 0).sum / (table513.rows : ℚ) :=
  ⟨by decide, mean_is_arithmetic_average.1 table513 0 (by decide)⟩

/-- Claim C7: `randomDataStream` returns exactly `numOfData` elements, and
every element is the value of a cell `(r, c)` actually present in the table
(`r < rows`, `c < cols`), the indices being the draws reduced modulo the
table's dimensions. -/
theorem randomDataStream_sound (df : csvData) (n : Nat) (rnd : Nat → Nat)
    (hr : 1 ≤ df.rows) (hc : 1 ≤ df.cols) :
    (randomDataStream df n rnd).length = n ∧
    ∀ x ∈ randomDataStream df n rnd,
      ∃ r, r < df.rows ∧ ∃ c, c < df.cols ∧ x = df.dataFrame r c := by
  refine ⟨by simp [randomDataStream], ?elems⟩
  intro x hx
  simp only [randomDataStream, List.mem_map, List.mem_range] at hx
  obtain ⟨num, _, hxe⟩ := hx
  exact ⟨rnd (2 * num) % df.rows, Nat.mod_lt _ hr,
    rnd (2 * num + 1) % df.cols, Nat.mod_lt _ hc, hxe.symm⟩

/-- Witness for C7 at the table with column `[1, 2, 3, 4]`, two draws from the
identity randomness stream. -/
theorem randomDataStream_sound_witness :
    1 ≤ table1234.rows ∧ 1 ≤ table1234.cols ∧
    ((randomDataStream table1234 2 id).length = 2 ∧
     ∀ x ∈ randomDataStream table1234 2 id,
       ∃ r, r < table1234.rows ∧ ∃ c, c < table1234.cols ∧
         x = table1234.dataFrame r c) :=
  ⟨by decide, by decide, randomDataStream_sound table1234 2 id (by decide) (by decide)⟩

/-- Claim C8: with `lines = rows`, `head` prints exactly the table's rows
`0..rows-1` in original order and `tail` prints exactly those rows in reverse
order; more generally the `i`-th line printed by `head df lines` is row `i`
(rows `0..lines-1`), and for `lines ≤ rows` the `i`-th line printed by
`tail df lines` is row `rows - 1 - i` (rows `rows-1` down to `rows-lines`). -/
theorem head_tail_print_rows (df : csvData) :
    head df df.rows = (List.range df.rows).map (printRow df) ∧
    tail df df.rows = (head df df.rows).reverse ∧
    (∀ lines i, i < lines → (head df lines).getD i [] = printRow df i) ∧
    (∀ lines i, i < lines → lines ≤ df.rows →
      (tail df lines).getD i [] = printRow df (df.rows - 1 - i)) := by
  refine ⟨rfl, ?rev, ?hd, ?tl⟩
  · rw [head, tail, reverse_map_range]
  · intro lines i h
    have h1 : i < (head df lines).length := by simp [head, h]
    rw [List.getD_eq_getElem _ _ h1]
    simp [head]
  · intro lines i h _hle
    have h1 : i < (tail df lines).length := by simp [tail, h]
    rw [List.getD_eq_getElem _ _ h1]
    simp [tail]

/-- Witness for C8's indexed conjuncts at the table with column `[5, 1, 3]`,
`lines = 2`, `i = 1`. -/
theorem head_tail_print_rows_witness :
    (1 < 2 ∧ (head table513 2).getD 1 [] = printRow table513 1) ∧
    (1 < 2 ∧ 2 ≤ table513.rows ∧
      (tail table513 2).getD 1 [] = printRow table513 (table513.rows - 1 - 1)) :=
  ⟨⟨by decide, (head_tail_print_rows table513).2.2.1 2 1 (by decide)⟩,
   ⟨by decide, by decide,
     (head_tail_print_rows table513).2.2.2 2 1 (by decide) (by decide)⟩⟩

/-- Claim C9: `compareVectors` returns exactly `-1` when `a < b`, `0` when
`a = b`, `+1` when `a > b`, and is antisymmetric:
`compareVectors a b = -compareVectors b a`. -/
theorem compareVectors_trichotomy (a b : ℚ) :
    compareVectors a b = (if a < b then -1 else if a = b then 0 else 1) ∧
    compareVectors a b = -compareVectors b a := by
  rcases lt_trichotomy a b with h | h | h
  · simp [compareVectors, h, asymm h, ne_of_lt h]
  · subst h
    simp [compareVectors, lt_irrefl]
  · have hne : a ≠ b := ne_of_gt h
    simp [compareVectors, h, asymm h, hne]

/-- Claim C10: calling `scaleVector` with a degenerate target range
`newLowBound = newUpBound` returns a vector of the input's length whose every
element equals `newLowBound`: the scale is `0` and the offset is
`newLowBound`, with no failure despite the collapsed target range. -/
theorem scaleVector_degenerate_target (v : List ℚ) (lb ub nl : ℚ) (_h : ub ≠ lb) :
    (scaleVector v lb ub nl nl).length = v.length ∧
    ∀ x ∈ scaleVector v lb ub nl nl, x = nl := by
  refine ⟨by simp [scaleVector], ?elems⟩
  intro x hx
  simp only [scaleVector, List.mem_map] at hx
  obtain ⟨y, _, hy⟩ := hx
  rw [← hy]
  simp

/-- Witness for C10 on the vector `[3, 5]`, source bounds `[2, 4]`, collapsed
target `[7, 7]`. -/
theorem scaleVector_degenerate_target_witness :
    ((4 : ℚ) ≠ 2) ∧
    ((scaleVector [3, 5] 2 4 7 7).length = ([3, 5] : List ℚ).length ∧
     ∀ x ∈ scaleVector [3, 5] 2 4 7 7, x = 7) :=
  ⟨by norm_num, scaleVector_degenerate_target [3, 5] 2 4 7 (by norm_num)⟩
